import Mathlib

/-!
A shallow embedding of the core logic of the `tapo-control` command-line
tools (lib/common.js, ptz.js, preset.js, snapshot.js), together with
theorems checking the behavioural properties stated in the design notes.

JavaScript effects are made explicit: environment/file reads become
function parameters, network calls become elements of an emitted event
trace, thrown exceptions become `Except` errors, and JS numbers are
modelled as rationals (with `JNum.nan` for NaN where the code can
produce one).
-/

namespace Tapo

/-! ### JavaScript primitive value model -/

/-- A JS primitive as it appears in the configuration sources: either a
number (modelled as an integer, the only numeric shape these sources
produce) or a string.  `Option JVal` models a possibly-absent
(`undefined`) value. -/
inductive JVal where
  | num (n : ℤ)
  | str (s : String)
deriving DecidableEq

/-- JS truthiness for a `JVal`: `0` and `""` are falsy. -/
def jsTruthy : JVal → Bool
  | .num n => n != 0
  | .str s => s != ""

/-- JS string coercion of a `JVal` (template-literal rendering). -/
def jsToStr : JVal → String
  | .num n => toString n
  | .str s => s

/-- Template-literal rendering of a possibly-`undefined` value. -/
def jsDisplayOpt : Option JVal → String
  | none => "undefined"
  | some v => jsToStr v

/-- The JS nullish-coalescing operator `a ?? b` over optional values. -/
def nullish (a b : Option JVal) : Option JVal :=
  match a with
  | some v => some v
  | none => b

/-- The JS logical-or `a || b` over optional values: returns `a` when it
is present and truthy, otherwise `b` (even when `b` is falsy or absent). -/
def jsOr (a b : Option JVal) : Option JVal :=
  match a with
  | some v => if jsTruthy v then some v else b
  | none => b

/-- Value of a list of decimal digit characters. -/
def digitsToNat (ds : List Char) : ℕ :=
  ds.foldl (fun a c => a * 10 + (c.toNat - 48)) 0

/-- JS `parseInt(s, 10)`: skip leading whitespace, an optional sign, then
the longest run of decimal digits; `none` (NaN) when that run is empty. -/
def parseIntStr (s : String) : Option ℤ :=
  let cs := s.data.dropWhile (fun c => c.isWhitespace)
  let signed : Bool × List Char :=
    match cs with
    | '-' :: t => (true, t)
    | '+' :: t => (false, t)
    | _ => (false, cs)
  let ds := signed.2.takeWhile (fun c => c.isDigit)
  if ds.isEmpty then none
  else
    let n : ℤ := (digitsToNat ds : ℤ)
    some (if signed.1 then -n else n)

/-- JS `parseInt(v, 10)` on a primitive: numbers round-trip through their
decimal rendering, strings are parsed. -/
def parseIntJS : JVal → Option ℤ
  | .num n => some n
  | .str s => parseIntStr s

/-- A JS floating-point number: `nan` or a rational value.  Rationals
stand in for IEEE doubles; every literal these tools handle is exactly
representable at the precision the claims need. -/
inductive JNum where
  | nan
  | num (v : ℚ)
deriving DecidableEq

/-- JS `parseFloat(s)`: skip leading whitespace, optional sign, decimal
digits with an optional fractional part and an optional well-formed
exponent; `none` (NaN) when no digit is found.  (`Infinity` literals are
not modelled; they fail every range check just as NaN does.) -/
def parseFloatJS (s : String) : Option ℚ :=
  let cs := s.data.dropWhile (fun c => c.isWhitespace)
  let signed : ℚ × List Char :=
    match cs with
    | '-' :: t => (-1, t)
    | '+' :: t => (1, t)
    | _ => (1, cs)
  let intPart := signed.2.takeWhile (fun c => c.isDigit)
  let rest1 := signed.2.dropWhile (fun c => c.isDigit)
  let fracAndRest : List Char × List Char :=
    match rest1 with
    | '.' :: t => (t.takeWhile (fun c => c.isDigit), t.dropWhile (fun c => c.isDigit))
    | _ => ([], rest1)
  let fracPart := fracAndRest.1
  if intPart.isEmpty ∧ fracPart.isEmpty then none
  else
    let mant : ℚ := (digitsToNat (intPart ++ fracPart) : ℚ) / ((10 : ℚ) ^ fracPart.length)
    let expo : ℤ :=
      match fracAndRest.2 with
      | e :: t =>
        if e = 'e' ∨ e = 'E' then
          let esigned : ℤ × List Char :=
            match t with
            | '-' :: u => (-1, u)
            | '+' :: u => (1, u)
            | _ => (1, t)
          let eds := esigned.2.takeWhile (fun c => c.isDigit)
          if eds.isEmpty then 0 else esigned.1 * (digitsToNat eds : ℤ)
        else 0
      | [] => 0
    some (signed.1 * mant * (10 : ℚ) ^ expo)

/-- `parseFloat` packaged as a `JNum`. -/
def parseFloatJNum (s : String) : JNum :=
  match parseFloatJS s with
  | none => .nan
  | some v => .num v

/-- JS `Math.round`: nearest integer, halves toward positive infinity. -/
def jsRound (q : ℚ) : ℤ := ⌊q + 1 / 2⌋

/-! ### lib/common.js — preprocessArgs -/

/-- The JS replace of an anchored `--` regex with the empty string:
strip one leading `--` if present. -/
def stripDashes (s : String) : String :=
  match s.data with
  | '-' :: '-' :: rest => String.mk rest
  | _ => s

/-- The test `/^-[\d.]/.test(next)`: a leading `-` followed by a decimal
digit or a dot.  Only the first two characters are ever examined. -/
def negNumeric (s : String) : Bool :=
  match s.data with
  | c0 :: c1 :: _ => c0 == '-' && (c1.isDigit || c1 == '.')
  | _ => false

/-- `preprocessArgs(args, numericKeys)` from lib/common.js: fuse
`--key value` into `--key=value` when `key` (after stripping `--`) is in
`numericKeys` and `value` looks like a negative number, so that the
downstream flag parser does not mistake the value for a flag. -/
def preprocessArgs (args : List String) (numericKeys : List String) : List String :=
  match args with
  | [] => []
  | [a] => [a]
  | a :: b :: rest =>
    if numericKeys.contains (stripDashes a) && negNumeric b then
      (a ++ "=" ++ b) :: preprocessArgs rest numericKeys
    else
      a :: preprocessArgs (b :: rest) numericKeys

/-! ### lib/common.js — loadConfig

The environment, `.env` dotfile and persisted JSON config are effectful
reads in the source; here each source is an explicit record of optional
primitive values, in the same precedence roles as in the code. -/

/-- One configuration source (CLI flags object, process environment,
dotfile, persisted config file, or caller defaults). -/
structure SourceRec where
  ip : Option JVal := none
  username : Option JVal := none
  password : Option JVal := none
  port : Option JVal := none

/-- The resolved connection profile returned by `loadConfig`. -/
structure Profile where
  ip : Option JVal
  username : Option JVal
  password : Option JVal
  port : ℤ

/-- The raw port value before integer parsing: the nullish-coalescing
chain `argv.port ?? env ?? dotenv ?? fileConfig.port ?? defaults.port
?? 2020`. -/
def effectivePort (argv envv dotenvv fileConfig defaults : SourceRec) : JVal :=
  (nullish argv.port (nullish envv.port (nullish dotenvv.port (nullish fileConfig.port
    (nullish defaults.port (some (JVal.num 2020))))))).getD (JVal.num 2020)

/-- The error message template for an invalid port. -/
def mkInvalidPortMsg (x : String) : String :=
  "Invalid port number: " ++ x ++ ". Must be 1-65535"

/-- The value interpolated into the invalid-port message: the JS
logical-or chain over CLI, environment, persisted-config and default
sources (the dotfile source is absent in the source's template). -/
def portErrShown (argv envv fileConfig defaults : SourceRec) : String :=
  jsDisplayOpt (jsOr argv.port (jsOr envv.port (jsOr fileConfig.port defaults.port)))

/-- `loadConfig(argv, defaults)` from lib/common.js, with the effectful
sources passed explicitly.  A raised `Error` is an `Except.error`. -/
def loadConfig (argv envv dotenvv fileConfig defaults : SourceRec) : Except String Profile :=
  match parseIntJS (effectivePort argv envv dotenvv fileConfig defaults) with
  | none => Except.error (mkInvalidPortMsg (portErrShown argv envv fileConfig defaults))
  | some port =>
    if port < 1 ∨ port > 65535 then
      Except.error (mkInvalidPortMsg (portErrShown argv envv fileConfig defaults))
    else
      Except.ok
        { ip := jsOr argv.ip (jsOr envv.ip (jsOr dotenvv.ip (jsOr fileConfig.ip defaults.ip)))
          username := jsOr argv.username (jsOr envv.username
            (jsOr dotenvv.username (jsOr fileConfig.username defaults.username)))
          password := jsOr argv.password (jsOr envv.password
            (jsOr dotenvv.password (jsOr fileConfig.password defaults.password)))
          port := port }

/-- The effective-port parse-and-range test that makes `loadConfig`
raise. -/
def portInvalidB (v : JVal) : Bool :=
  match parseIntJS v with
  | none => true
  | some n => n < 1 || n > 65535

/-! ### lib/common.js — validateIp and validateRange -/

/-- Accumulator loop for `splitDot`. -/
def splitDotAux : List Char → List Char → List String
  | [], acc => [String.mk acc.reverse]
  | c :: rest, acc =>
    if c = '.' then String.mk acc.reverse :: splitDotAux rest []
    else splitDotAux rest (c :: acc)

/-- JS `s.split('.')`: split on every dot; adjacent, leading and
trailing dots produce empty groups, and the empty string yields one
empty group. -/
def splitDot (s : String) : List String :=
  splitDotAux s.data []

/-- The per-group check inside `validateIp`'s loop: the group parses to
an integer, the integer is in `[0, 255]`, and its decimal rendering is
exactly the original group text. -/
def partOk (p : String) : Bool :=
  match parseIntStr p with
  | none => false
  | some n => !(n < 0) && !(n > 255) && (toString n == p)

/-- `validateIp(ip)` from lib/common.js; `none` means the address is
accepted, `some msg` is the diagnostic.  The caller-side `!ip` falsiness
test is the empty-string case here. -/
def validateIp (ip : String) : Option String :=
  if ip = "" then some "IP address is required (--ip or IP_ADDRESS)"
  else if (splitDot ip).length ≠ 4 then some ("Invalid IP address: " ++ ip)
  else if (splitDot ip).all partOk then none
  else some ("Invalid IP address: " ++ ip)

/-- `validateRange(value, min, max, name)` from lib/common.js; `none`
means the value passed. -/
def validateRange (value : JNum) (mn mx : ℚ) (name : String) : Option String :=
  match value with
  | .nan => some (name ++ " must be a number, got: NaN")
  | .num v =>
    if v < mn ∨ v > mx then
      some (name ++ " must be between " ++ toString mn ++ " and " ++ toString mx
        ++ ", got: " ++ toString v)
    else none

/-- A validated value: a non-NaN number within `[mn, mx]`. -/
def inRangeJ (v : JNum) (mn mx : ℚ) : Bool :=
  match v with
  | .nan => false
  | .num q => mn ≤ q && q ≤ mx

/-! ### ptz.js — the PTZ controller branches

Device interactions become an emitted trace of events; the device's
responses (status payload, goto-home failure) are oracle parameters. -/

/-- One observable action of the PTZ controller.  All constructors but
`waitMs` are network calls against the device. -/
inductive Event where
  | getStatus
  | absoluteMove (x y z : JNum) (speed : ℚ)
  | continuousMove (vx vy vz : ℚ) (timeoutSec : Option ℤ)
  | stopCall
  | gotoHome
  | waitMs (ms : ℚ)
deriving DecidableEq

/-- Whether an event is a network call (local waits are not). -/
def isNetworkCall : Event → Bool
  | .waitMs _ => false
  | _ => true

/-- Whether an event is an absolute-move request. -/
def isAbsoluteMove : Event → Bool
  | .absoluteMove _ _ _ _ => true
  | _ => false

/-- Whether an event is a continuous-move request. -/
def isContinuousMove : Event → Bool
  | .continuousMove _ _ _ _ => true
  | _ => false

/-- Whether an event is a stop request. -/
def isStopCall : Event → Bool
  | .stopCall => true
  | _ => false

/-- The raw position strings found in a PTZ status payload (each may be
absent when the nested path is missing). -/
structure StatusRaw where
  x : Option String
  y : Option String
  z : Option String

/-- `parseFloat(raw) || 0`: an absent or unparsable coordinate becomes
`0` (NaN is falsy; any nonzero number is truthy and kept; zero stays
zero). -/
def floatOrZero (o : Option String) : ℚ :=
  match o with
  | none => 0
  | some s =>
    match parseFloatJS s with
    | none => 0
    | some v => v

/-- The pan value used by the absolute-move branch: the parsed CLI value
when supplied, otherwise the current device x position (`0` when the
status query failed or returned nothing). -/
def resolvedPan (panArg : Option String) (status : Option StatusRaw) : JNum :=
  match panArg with
  | some s => parseFloatJNum s
  | none => .num (match status with
    | some st => floatOrZero st.x
    | none => 0)

/-- The tilt value used by the absolute-move branch (see `resolvedPan`). -/
def resolvedTilt (tiltArg : Option String) (status : Option StatusRaw) : JNum :=
  match tiltArg with
  | some s => parseFloatJNum s
  | none => .num (match status with
    | some st => floatOrZero st.y
    | none => 0)

/-- The zoom value used by the absolute-move branch (see `resolvedPan`). -/
def resolvedZoom (zoomArg : Option String) (status : Option StatusRaw) : JNum :=
  match zoomArg with
  | some s => parseFloatJNum s
  | none => .num (match status with
    | some st => floatOrZero st.z
    | none => 0)

/-- The absolute-move branch of `controlPTZ` (ptz.js).  The branch first
queries the current position (the `status` oracle is that query's
outcome), fills unspecified axes from it, range-validates pan, tilt and
zoom in that order, and only then issues the move followed by a settle
wait and a confirmation status read.  Returns the event trace and the
error printed on abort, if any. -/
def absoluteMoveBranch (panArg tiltArg zoomArg : Option String) (speed : ℚ)
    (status : Option StatusRaw) : List Event × Option String :=
  let pan := resolvedPan panArg status
  let tilt := resolvedTilt tiltArg status
  let zoom := resolvedZoom zoomArg status
  match validateRange pan (-1) 1 "Pan" with
  | some e => ([.getStatus], some e)
  | none =>
    match validateRange tilt (-1) 1 "Tilt" with
    | some e => ([.getStatus], some e)
    | none =>
      match validateRange zoom 0 1 "Zoom" with
      | some e => ([.getStatus], some e)
      | none =>
        ([.getStatus, .absoluteMove pan tilt zoom speed, .waitMs 1000, .getStatus], none)

/-- The home branch of `controlPTZ` (ptz.js): try `gotoHomePosition`;
when the device rejects it (`gotoErr` is the thrown message), fall back
to an absolute move to the origin at the configured speed, swallowing
the failure. -/
def homeBranch (gotoErr : Option String) (speed : ℚ) : List Event × Option String :=
  match gotoErr with
  | none => ([.gotoHome], none)
  | some _ => ([.gotoHome, .absoluteMove (.num 0) (.num 0) (.num 0) speed], none)

/-- The continuous-move branch of `controlPTZ` (ptz.js): build the
velocity from the direction flags, issue one continuous move (with a
rounded device-side timeout hint when a duration was given), and when a
duration was given also wait it out locally and issue an explicit stop. -/
def continuousMoveBranch (left right up down zoomIn zoomOut : Bool) (speed : ℚ)
    (duration : Option ℚ) : List Event × Option String :=
  let vx : ℚ := if left then -speed else if right then speed else 0
  let vy : ℚ := if up then speed else if down then -speed else 0
  let vz : ℚ := if zoomIn then speed else if zoomOut then -speed else 0
  let timeoutHint : Option ℤ := duration.map jsRound
  match duration with
  | some d => ([.continuousMove vx vy vz timeoutHint, .waitMs (d * 1000), .stopCall], none)
  | none => ([.continuousMove vx vy vz timeoutHint], none)

/-! ### preset.js — extractPresets and findPreset

The raw ONVIF preset response is an XML-derived value tree: strings,
objects and arrays, with `null` standing for both JS `null` and
`undefined`.  A thrown TypeError is an `Except.error`. -/

/-- An XML-derived JS value as produced by the ONVIF client library. -/
inductive JSVal where
  | null : JSVal
  | str : String → JSVal
  | obj : List (String × JSVal) → JSVal
  | arr : List JSVal → JSVal

/-- First binding for a key in an object's field list (`null` when the
key is absent, i.e. JS `undefined`). -/
def lookupField : List (String × JSVal) → String → JSVal
  | [], _ => .null
  | (k, v) :: rest, key => if k = key then v else lookupField rest key

/-- Optional-chained property access `v?.k`: `undefined` on `null`,
`undefined` on non-objects, field lookup on objects. -/
def getFieldOpt (v : JSVal) (k : String) : JSVal :=
  match v with
  | .obj fs => lookupField fs k
  | _ => .null

/-- JS truthiness of an XML-derived value: `null`/`undefined` and the
empty string are falsy, every object and array is truthy. -/
def jsTruthyV : JSVal → Bool
  | .null => false
  | .str s => s != ""
  | .obj _ => true
  | .arr _ => true

/-- The JS idiom `x || ''`: keep a truthy value, default everything else
to the empty string. -/
def jsOrEmpty (v : JSVal) : JSVal :=
  if jsTruthyV v then v else .str ""

/-- A normalized preset record as built by `extractPresets`.  The field
values are whatever the payload held (strings for well-formed
responses). -/
structure Preset where
  token : JSVal
  name : JSVal

/-- The body of the map inside `extractPresets`: build a record from one
raw preset entry.  Reading the attribute holder of a `null` entry throws
a TypeError, which is the `Except.error` case. -/
def presetOfRecord : JSVal → Except Unit Preset
  | .null => .error ()
  | p => .ok ⟨jsOrEmpty (getFieldOpt (getFieldOpt p "$") "token"),
      jsOrEmpty (getFieldOpt p "Name")⟩

/-- `extractPresets(result)` from preset.js: optional-chain down to the
`Preset` field, return the empty list when it is falsy, and otherwise
normalize the array-or-singleton shape to a list of records. -/
def extractPresets (result : JSVal) : Except Unit (List Preset) :=
  let raw := getFieldOpt (getFieldOpt (getFieldOpt result "data") "GetPresetsResponse") "Preset"
  if jsTruthyV raw then
    (match raw with
     | .arr xs => xs
     | v => [v]).mapM presetOfRecord
  else .ok []

/-- A preset whose token and name are both strings, the shape every
well-formed response produces (and the shape of the design's Preset
data model). -/
def presetIsStr (p : Preset) : Bool :=
  (match p.token with
   | .str _ => true
   | _ => false)
  && (match p.name with
      | .str _ => true
      | _ => false)

/-- JS `s.toLowerCase()` (ASCII case folding suffices for the strings
these tools compare). -/
def lowerStr (s : String) : String :=
  String.mk (s.data.map Char.toLower)

/-- The match predicate of `findPreset` on a string-shaped record: exact
token equality, or a non-empty name equal under lower-casing. -/
def presetMatches (p : Preset) (valStr : String) : Bool :=
  (match p.token with
   | .str s => s == valStr
   | _ => false)
  || (match p.name with
      | .str s => s != "" && lowerStr s == lowerStr valStr
      | _ => false)

/-- The `Array.prototype.find` loop inside `findPreset`: first record
whose token equals the text, or whose truthy name compares equal
case-insensitively.  Lower-casing a truthy non-string name throws. -/
def findPresetAux (valStr : String) : List Preset → Except Unit (Option Preset)
  | [] => .ok none
  | p :: rest =>
    if (match p.token with
        | .str s => s == valStr
        | _ => false) then .ok (some p)
    else if jsTruthyV p.name then
      match p.name with
      | .str s =>
        if lowerStr s == lowerStr valStr then .ok (some p)
        else findPresetAux valStr rest
      | _ => .error ()
    else findPresetAux valStr rest

/-- `findPreset(presets, val)` from preset.js: coerce the identifier to
text and search; `ok none` is the not-found signal. -/
def findPreset (presets : List Preset) (val : JVal) : Except Unit (Option Preset) :=
  findPresetAux (jsToStr val) presets

/-! ### snapshot.js — captureSnapshot

The filesystem is a map from paths to byte lists; the HTTP fetch and the
ffmpeg subprocess are oracle parameters describing what the outside
world did. -/

/-- The filesystem visible to the snapshot capturer. -/
def FSt := String → Option (List ℕ)

/-- Write (or with `none`, remove) the entry at one path. -/
def updateFS (fs : FSt) (p : String) (v : Option (List ℕ)) : FSt :=
  fun q => if q = p then v else fs q

/-- `captureViaOnvif` (snapshot.js): the `fetchResult` oracle is the
snapshot HTTP GET's outcome.  An error or an empty body fails without
writing; otherwise the body is written to the destination. -/
def captureViaOnvif (fetchResult : Except String (List ℕ)) (out : String)
    (fs : FSt) : FSt × Option String :=
  match fetchResult with
  | .error e => (fs, some e)
  | .ok data =>
    if data.length = 0 then (fs, some "Empty response from snapshot endpoint")
    else (updateFS fs out (some data), none)

/-- `captureViaRtsp` (snapshot.js): `ffmpegWrote` is what the subprocess
left at the destination before finishing (possibly nothing), and
`ffmpegErr` is its failure (or the local timeout kill).  On a clean run
the destination must exist or the capture still fails. -/
def captureViaRtsp (ffmpegWrote : Option (List ℕ)) (ffmpegErr : Option String)
    (out : String) (fs : FSt) : FSt × Option String :=
  let fs1 := match ffmpegWrote with
    | some d => updateFS fs out (some d)
    | none => fs
  match ffmpegErr with
  | some e => (fs1, some e)
  | none =>
    if (fs1 out).isSome then (fs1, none)
    else (fs1, some "Snapshot file was not created")

/-- `captureSnapshot` (snapshot.js): dispatch on the method, and on any
failure delete whatever file exists at the resolved destination before
exiting nonzero.  Returns the final filesystem and whether the exit was
clean. -/
def captureSnapshot (method : String) (fetchResult : Except String (List ℕ))
    (ffmpegWrote : Option (List ℕ)) (ffmpegErr : Option String)
    (out : String) (fs : FSt) : FSt × Bool :=
  match (if method = "onvif" then captureViaOnvif fetchResult out fs
    else captureViaRtsp ffmpegWrote ffmpegErr out fs) with
  | (fs1, none) => (fs1, true)
  | (fs1, some _) =>
    ((if (fs1 out).isSome then updateFS fs1 out none else fs1), false)

/-! ### Spec-side shape for address validation, and concrete fixtures -/

/-- The accepted address shape as the design document words it: four
dot-separated groups, each the canonical decimal rendering of an integer
in `[0, 255]`.  Stated independently of `validateIp` so the two can be
compared. -/
def specCanonicalQuad (ip : String) : Prop :=
  (splitDot ip).length = 4 ∧ ∀ p ∈ splitDot ip, ∃ n : ℕ, n ≤ 255 ∧ toString n = p

/-- A configuration source carrying only a port. -/
def srcWithPort (v : JVal) : SourceRec := ⟨none, none, none, some v⟩

/-- A configuration source carrying nothing. -/
def srcEmpty : SourceRec := ⟨none, none, none, none⟩

/-- A preset response wrapping the given value in the `Preset` field. -/
def wrapPreset (v : JSVal) : JSVal :=
  .obj [("data", .obj [("GetPresetsResponse", .obj [("Preset", v)])])]

/-- A preset response whose `Preset` array contains a null entry. -/
def presetArrayNull : JSVal := wrapPreset (.arr [.null])

/-- A small concrete preset list with string tokens and names. -/
def homePresets : List Preset := [⟨.str "1", .str "Home"⟩, ⟨.str "2", .str "Door"⟩]

/-- A filesystem holding one pre-existing snapshot file. -/
def preExistingFS : FSt :=
  fun p => if p = "/tmp/snap.jpg" then some [7] else none

/-! ## Theorems -/

/-! ### C1 — preprocessArgs on the documented example -/

/-- C1, counterexample: on `['--pan','-0.8','--tilt','0.3']` with
numeric set `{pan, tilt}`, `preprocessArgs` does not return
`['--pan=-0.8','--tilt=0.3']` — the fusion test requires a mandatory
leading `-`, so `0.3` is not fused. -/
theorem c1_counterexample :
    preprocessArgs ["--pan", "-0.8", "--tilt", "0.3"] ["pan", "tilt"]
      ≠ ["--pan=-0.8", "--tilt=0.3"] := by
  decide

/-- C1, amended: the example yields `['--pan=-0.8','--tilt','0.3']`; an
adjacent `(--name, value)` pair is fused into `--name=value` exactly
when the name (with `--` stripped) is in the numeric set and the value
starts with `-` followed by a digit or dot; a value failing that test is
left as its own token. -/
theorem c1_fusion_requires_leading_minus :
    preprocessArgs ["--pan", "-0.8", "--tilt", "0.3"] ["pan", "tilt"]
      = ["--pan=-0.8", "--tilt", "0.3"]
    ∧ (∀ (ks : List String) (a b : String) (rest : List String),
        ks.contains (stripDashes a) = true → negNumeric b = true →
        preprocessArgs (a :: b :: rest) ks = (a ++ "=" ++ b) :: preprocessArgs rest ks)
    ∧ (∀ (ks : List String) (a b : String) (rest : List String),
        negNumeric b = false →
        preprocessArgs (a :: b :: rest) ks = a :: preprocessArgs (b :: rest) ks) := by
  refine ⟨by decide, ?_, ?_⟩
  · intro ks a b rest h1 h2
    have e : preprocessArgs (a :: b :: rest) ks
        = if ks.contains (stripDashes a) && negNumeric b then
            (a ++ "=" ++ b) :: preprocessArgs rest ks
          else a :: preprocessArgs (b :: rest) ks := rfl
    rw [e, h1, h2]
    simp
  · intro ks a b rest h1
    have e : preprocessArgs (a :: b :: rest) ks
        = if ks.contains (stripDashes a) && negNumeric b then
            (a ++ "=" ++ b) :: preprocessArgs rest ks
          else a :: preprocessArgs (b :: rest) ks := rfl
    rw [e, h1]
    simp

/-- C1 witness: the amended fusion rule applied at a concrete input. -/
theorem c1_witness :
    preprocessArgs ["--pan", "-1"] ["pan"] = ["--pan=-1"] := by
  have h := c1_fusion_requires_leading_minus.2.1 ["pan"] "--pan" "-1" []
    (by decide) (by decide)
  rw [h]
  decide

/-! ### C4 — the fusion invariant of preprocessArgs -/

/-- Unfolding equation for `preprocessArgs` on two or more tokens. -/
theorem preprocessArgs_cons_cons (ks : List String) (a b : String) (rest : List String) :
    preprocessArgs (a :: b :: rest) ks
      = if ks.contains (stripDashes a) && negNumeric b then
          (a ++ "=" ++ b) :: preprocessArgs rest ks
        else a :: preprocessArgs (b :: rest) ks := rfl

/-- Every output token of `preprocessArgs` is an input token, or the
fusion of an adjacent input pair whose key is numeric and whose value
passes the syntactic test. -/
theorem preprocessArgs_mem (ks : List String) :
    ∀ (args : List String), ∀ t ∈ preprocessArgs args ks,
      t ∈ args ∨ ∃ a b, (∃ l1 l2, args = l1 ++ a :: b :: l2)
        ∧ ks.contains (stripDashes a) = true ∧ negNumeric b = true ∧ t = a ++ "=" ++ b := by
  have H : ∀ (n : ℕ) (args : List String), args.length ≤ n → ∀ t ∈ preprocessArgs args ks,
      t ∈ args ∨ ∃ a b, (∃ l1 l2, args = l1 ++ a :: b :: l2)
        ∧ ks.contains (stripDashes a) = true ∧ negNumeric b = true ∧ t = a ++ "=" ++ b := by
    intro n
    induction n with
    | zero =>
      intro args hlen t ht
      have : args = [] := List.eq_nil_of_length_eq_zero (Nat.le_zero.mp hlen)
      subst this
      simp [preprocessArgs] at ht
    | succ n ih =>
      intro args hlen t ht
      rcases args with _ | ⟨a, _ | ⟨b, rest⟩⟩
      · simp [preprocessArgs] at ht
      · simp [preprocessArgs] at ht
        exact Or.inl (by simp [ht])
      · rw [preprocessArgs_cons_cons] at ht
        have hlen' : rest.length + 2 ≤ n + 1 := by simpa using hlen
        by_cases hc : ks.contains (stripDashes a) && negNumeric b
        · rw [if_pos hc] at ht
          rcases List.mem_cons.mp ht with h1 | h1
          · right
            exact ⟨a, b, ⟨[], rest, rfl⟩, (Bool.and_eq_true _ _ ▸ hc).1,
              (Bool.and_eq_true _ _ ▸ hc).2, h1⟩
          · rcases ih rest (by omega) t h1 with h2 | ⟨a', b', ⟨l1, l2, hsplit⟩, hk, hnb, ht'⟩
            · exact Or.inl (List.mem_cons_of_mem _ (List.mem_cons_of_mem _ h2))
            · exact Or.inr ⟨a', b', ⟨a :: b :: l1, l2, by rw [hsplit]; rfl⟩, hk, hnb, ht'⟩
        · rw [if_neg hc] at ht
          rcases List.mem_cons.mp ht with h1 | h1
          · exact Or.inl (by simp [h1])
          · rcases ih (b :: rest) (by simp; omega) t h1 with h2 |
              ⟨a', b', ⟨l1, l2, hsplit⟩, hk, hnb, ht'⟩
            · exact Or.inl (List.mem_cons_of_mem _ h2)
            · exact Or.inr ⟨a', b', ⟨a :: l1, l2, by rw [hsplit]; rfl⟩, hk, hnb, ht'⟩
  intro args
  exact H args.length args (le_refl _)

/-- When no token's key is in the numeric set, `preprocessArgs` is the
identity. -/
theorem preprocessArgs_id (ks : List String) :
    ∀ args, (∀ a ∈ args, ks.contains (stripDashes a) = false) →
      preprocessArgs args ks = args := by
  intro args
  induction args with
  | nil => intro _; rfl
  | cons a tl ih =>
    intro h
    cases tl with
    | nil => rfl
    | cons b rest =>
      rw [preprocessArgs_cons_cons, h a (by simp), Bool.false_and, if_neg (by simp)]
      rw [ih (fun x hx => h x (List.mem_cons_of_mem _ hx))]

set_option linter.unnecessarySeqFocus false in
/-- The fusion test on the value inspects only its first two characters. -/
theorem negNumeric_first_two (v w : String) (h : v.data.take 2 = w.data.take 2) :
    negNumeric v = negNumeric w := by
  unfold negNumeric
  rcases hv : v.data with _ | ⟨c0, _ | ⟨c1, tv⟩⟩ <;>
    rcases hw : w.data with _ | ⟨d0, _ | ⟨d1, tw⟩⟩ <;>
      rw [hv, hw] at h <;> simp [List.take] at h ⊢ <;> simp_all

/-- C4: for every token list and numeric-key set, fusion happens only
for a token whose name (with a leading `--` stripped) the caller
declared numeric and an adjacent value passing the syntactic
leading-minus test; when no token is a numeric flag the list passes
through untouched; and the value test is purely syntactic, depending
only on the value's first two characters. -/
theorem c4_fusion_only_declared_numeric :
    ∀ (args ks : List String),
      (∀ t ∈ preprocessArgs args ks, t ∈ args ∨
        ∃ a b, (∃ l1 l2, args = l1 ++ a :: b :: l2)
          ∧ ks.contains (stripDashes a) = true ∧ negNumeric b = true ∧ t = a ++ "=" ++ b)
      ∧ ((∀ a ∈ args, ks.contains (stripDashes a) = false) → preprocessArgs args ks = args)
      ∧ (∀ v w : String, v.data.take 2 = w.data.take 2 → negNumeric v = negNumeric w) :=
  fun args ks =>
    ⟨preprocessArgs_mem ks args, preprocessArgs_id ks args,
      fun v w h => negNumeric_first_two v w h⟩

/-- C4 witness: a token list with no numeric flag passes through
untouched. -/
theorem c4_witness :
    preprocessArgs ["--ip", "10.0.0.1", "--left"] ["pan", "tilt"]
      = ["--ip", "10.0.0.1", "--left"] :=
  (c4_fusion_only_declared_numeric ["--ip", "10.0.0.1", "--left"] ["pan", "tilt"]).2.1
    (by decide)

/-! ### C2 — port resolution in loadConfig -/

/-- C2, counterexample: a CLI-supplied port `0` makes `loadConfig`
raise, but the diagnostic does not name the offending raw value `0` —
the message's interpolation chain uses JS `||`, which skips falsy
values, so it prints `undefined` instead (the digit `0` does not occur
anywhere in the message). -/
theorem c2_counterexample :
    loadConfig (srcWithPort (JVal.num 0)) srcEmpty srcEmpty srcEmpty srcEmpty
      = Except.error "Invalid port number: undefined. Must be 1-65535"
    ∧ '0' ∉ "Invalid port number: undefined. Must be 1-65535".data := by
  exact ⟨rfl, by decide⟩

/-- C2, amended: a CLI port 8080 wins over every other source; with no
port anywhere the result is 2020; an effective port of 0, 70000 or
non-numeric text makes `loadConfig` raise before returning a profile,
and the message names the first truthy value among the CLI,
environment, persisted-config and default port sources (the dotfile
value is skipped and falsy raw values are not named, falling back to
the text `undefined`). -/
theorem c2_port_resolution :
    (∀ a e d f df : SourceRec, a.port = some (JVal.num 8080) →
      ∃ p, loadConfig a e d f df = Except.ok p ∧ p.port = 8080)
    ∧ (∀ a e d f df : SourceRec, a.port = none → e.port = none → d.port = none →
        f.port = none → df.port = none →
        ∃ p, loadConfig a e d f df = Except.ok p ∧ p.port = 2020)
    ∧ (∀ a e d f df : SourceRec,
        portInvalidB (effectivePort a e d f df) = true →
        loadConfig a e d f df
          = Except.error (mkInvalidPortMsg (portErrShown a e f df)))
    ∧ loadConfig (srcWithPort (JVal.num 70000)) srcEmpty srcEmpty srcEmpty srcEmpty
        = Except.error "Invalid port number: 70000. Must be 1-65535"
    ∧ loadConfig (srcWithPort (JVal.str "abc")) srcEmpty srcEmpty srcEmpty srcEmpty
        = Except.error "Invalid port number: abc. Must be 1-65535" := by
  refine ⟨?_, ?_, ?_, rfl, rfl⟩
  · intro a e d f df h
    have he : effectivePort a e d f df = JVal.num 8080 := by
      unfold effectivePort
      rw [h]
      rfl
    refine ⟨⟨jsOr a.ip (jsOr e.ip (jsOr d.ip (jsOr f.ip df.ip))),
      jsOr a.username (jsOr e.username (jsOr d.username (jsOr f.username df.username))),
      jsOr a.password (jsOr e.password (jsOr d.password (jsOr f.password df.password))),
      8080⟩, ?_, rfl⟩
    unfold loadConfig
    rw [he]
    rfl
  · intro a e d f df h1 h2 h3 h4 h5
    have he : effectivePort a e d f df = JVal.num 2020 := by
      unfold effectivePort
      rw [h1, h2, h3, h4, h5]
      rfl
    refine ⟨⟨jsOr a.ip (jsOr e.ip (jsOr d.ip (jsOr f.ip df.ip))),
      jsOr a.username (jsOr e.username (jsOr d.username (jsOr f.username df.username))),
      jsOr a.password (jsOr e.password (jsOr d.password (jsOr f.password df.password))),
      2020⟩, ?_, rfl⟩
    unfold loadConfig
    rw [he]
    rfl
  · intro a e d f df h
    unfold loadConfig
    unfold portInvalidB at h
    cases hp : parseIntJS (effectivePort a e d f df) with
    | none => rfl
    | some n =>
      rw [hp] at h
      replace h : (decide (n < 1) || decide (n > 65535)) = true := h
      have hcond : n < 1 ∨ n > 65535 := by simpa using h
      exact if_pos hcond

/-- C2 witness: a malformed port supplied only through the dotfile
raises, with the message showing the fallback chain's value. -/
theorem c2_witness :
    loadConfig srcEmpty srcEmpty (srcWithPort (JVal.str "abc")) srcEmpty srcEmpty
      = Except.error (mkInvalidPortMsg (portErrShown srcEmpty srcEmpty srcEmpty srcEmpty)) :=
  c2_port_resolution.2.2.1 srcEmpty srcEmpty (srcWithPort (JVal.str "abc")) srcEmpty srcEmpty
    (by decide)

/-! ### C3 — absolute-move range validation -/

/-- `validateRange` passes exactly on a non-NaN value inside the bounds. -/
theorem validateRange_none_iff (v : JNum) (mn mx : ℚ) (name : String) :
    validateRange v mn mx name = none ↔ inRangeJ v mn mx = true := by
  cases v with
  | nan => simp [validateRange, inRangeJ]
  | num q =>
    by_cases h : q < mn ∨ q > mx
    · simp only [validateRange, inRangeJ, if_pos h]
      constructor
      · intro hc
        exact absurd hc (by simp)
      · intro hc
        have hc' : mn ≤ q ∧ q ≤ mx := by simpa using hc
        rcases h with h | h <;> linarith [hc'.1, hc'.2]
    · simp only [validateRange, inRangeJ, if_neg h]
      push_neg at h
      simp [h.1, h.2]

/-- The absolute-move branch written as nested validation matches. -/
theorem absoluteMoveBranch_eq (pa ta za : Option String) (speed : ℚ)
    (status : Option StatusRaw) :
    absoluteMoveBranch pa ta za speed status
      = (match validateRange (resolvedPan pa status) (-1) 1 "Pan" with
         | some e => ([.getStatus], some e)
         | none =>
           match validateRange (resolvedTilt ta status) (-1) 1 "Tilt" with
           | some e => ([.getStatus], some e)
           | none =>
             match validateRange (resolvedZoom za status) 0 1 "Zoom" with
             | some e => ([.getStatus], some e)
             | none => ([.getStatus,
                 .absoluteMove (resolvedPan pa status) (resolvedTilt ta status)
                   (resolvedZoom za status) speed, .waitMs 1000, .getStatus], none)) := rfl

/-- C3, amended: whenever the resulting pan, tilt or zoom value fails
range validation (pan/tilt in [-1,1], zoom in [0,1], NaN always
failing), the absolute-move branch reports an error and its trace
contains no absolute-move request — the move is validated before being
issued, though the current-position status query precedes validation;
and any absolute move that is issued carries exactly the computed
values, all in range: out-of-range values are never clamped. -/
theorem c3_validated_before_move_never_clamped :
    ∀ (pa ta za : Option String) (speed : ℚ) (status : Option StatusRaw),
      ((inRangeJ (resolvedPan pa status) (-1) 1 = false
          ∨ inRangeJ (resolvedTilt ta status) (-1) 1 = false
          ∨ inRangeJ (resolvedZoom za status) 0 1 = false) →
        (absoluteMoveBranch pa ta za speed status).2.isSome = true
        ∧ ∀ ev ∈ (absoluteMoveBranch pa ta za speed status).1, isAbsoluteMove ev = false)
      ∧ (∀ x y z s, Event.absoluteMove x y z s ∈ (absoluteMoveBranch pa ta za speed status).1 →
          x = resolvedPan pa status ∧ y = resolvedTilt ta status ∧ z = resolvedZoom za status
          ∧ s = speed ∧ inRangeJ x (-1) 1 = true ∧ inRangeJ y (-1) 1 = true
          ∧ inRangeJ z 0 1 = true) := by
  intro pa ta za speed status
  rw [absoluteMoveBranch_eq pa ta za speed status]
  generalize hvp : validateRange (resolvedPan pa status) (-1) 1 "Pan" = vp
  cases vp with
  | some err =>
    constructor
    · intro _
      refine ⟨rfl, ?_⟩
      intro ev hev
      simp only [List.mem_singleton] at hev
      subst hev
      rfl
    · intro x y z s hmem
      simp at hmem
  | none =>
    have hp : inRangeJ (resolvedPan pa status) (-1) 1 = true :=
      (validateRange_none_iff _ _ _ _).mp hvp
    generalize hvt : validateRange (resolvedTilt ta status) (-1) 1 "Tilt" = vt
    cases vt with
    | some err =>
      constructor
      · intro _
        refine ⟨rfl, ?_⟩
        intro ev hev
        simp only [List.mem_singleton] at hev
        subst hev
        rfl
      · intro x y z s hmem
        simp at hmem
    | none =>
      have ht : inRangeJ (resolvedTilt ta status) (-1) 1 = true :=
        (validateRange_none_iff _ _ _ _).mp hvt
      generalize hvz : validateRange (resolvedZoom za status) 0 1 "Zoom" = vz
      cases vz with
      | some err =>
        constructor
        · intro _
          refine ⟨rfl, ?_⟩
          intro ev hev
          simp only [List.mem_singleton] at hev
          subst hev
          rfl
        · intro x y z s hmem
          simp at hmem
      | none =>
        have hz : inRangeJ (resolvedZoom za status) 0 1 = true :=
          (validateRange_none_iff _ _ _ _).mp hvz
        constructor
        · intro hbad
          rcases hbad with hb | hb | hb <;> simp_all
        · intro x y z s hmem
          simp only [List.mem_cons, List.not_mem_nil, or_false] at hmem
          rcases hmem with h | h | h | h
          · exact absurd h (by simp)
          · injection h with hx hy hz2 hs
            subst hx; subst hy; subst hz2; subst hs
            exact ⟨rfl, rfl, rfl, rfl, hp, ht, hz⟩
          · exact absurd h (by simp)
          · exact absurd h (by simp)

/-- C3 witness: a NaN pan (empty CLI value) fails validation, the
branch errors, and no absolute move appears in its trace. -/
theorem c3_witness :
    (absoluteMoveBranch (some "") none none (1/2) none).2.isSome = true
    ∧ ∀ ev ∈ (absoluteMoveBranch (some "") none none (1/2) none).1,
        isAbsoluteMove ev = false :=
  (c3_validated_before_move_never_clamped (some "") none none (1/2) none).1 (Or.inl rfl)

/-- C3, counterexample to the claim as stated: with pan `2` the
resulting value is out of range and the command aborts, but its trace
already contains a network call (the status query used to fill in
unspecified axes) — the abort does not happen before *any* network
call. -/
theorem c3_counterexample :
    inRangeJ (resolvedPan (some "2") none) (-1) 1 = false
    ∧ (absoluteMoveBranch (some "2") none none (1/2) none).2.isSome = true
    ∧ (absoluteMoveBranch (some "2") none none (1/2) none).1.countP
        (fun ev => isNetworkCall ev) ≠ 0 := by
  have h2 : resolvedPan (some "2") none = JNum.num 2 := by
    rw [show resolvedPan (some "2") none
      = JNum.num ((1 : ℚ) * (((2 : ℕ) : ℚ) / (10 : ℚ) ^ (0 : ℕ)) * (10 : ℚ) ^ (0 : ℤ)) from rfl]
    norm_num
  have hr : inRangeJ (JNum.num 2) (-1) 1 = false := by
    simp only [inRangeJ]
    norm_num
  have hv : validateRange (JNum.num 2) (-1) 1 "Pan"
      = some ("Pan must be between " ++ toString (-1 : ℚ) ++ " and " ++ toString (1 : ℚ)
        ++ ", got: " ++ toString (2 : ℚ)) := by
    simp only [validateRange]
    rw [if_pos (by norm_num : (2 : ℚ) < -1 ∨ (2 : ℚ) > 1)]
    rfl
  refine ⟨by rw [h2]; exact hr, ?_, ?_⟩
  · rw [absoluteMoveBranch_eq, h2, hv]
    rfl
  · rw [absoluteMoveBranch_eq, h2, hv]
    decide

/-! ### C5 — home-position fallback -/

/-- C5: when the dedicated goto-home request fails, the home branch
issues exactly one absolute move, to `{0,0,0}` at the configured speed,
and surfaces no error to the caller. -/
theorem c5_home_fallback :
    ∀ (e : String) (speed : ℚ),
      homeBranch (some e) speed
        = ([.gotoHome, .absoluteMove (.num 0) (.num 0) (.num 0) speed], none)
      ∧ (homeBranch (some e) speed).1.countP (fun ev => isAbsoluteMove ev) = 1
      ∧ (homeBranch (some e) speed).2 = none := by
  intro e speed
  refine ⟨rfl, ?_, rfl⟩
  simp [homeBranch, List.countP_cons, isAbsoluteMove]

/-- C5 witness: the fallback at a concrete failure and speed. -/
theorem c5_witness :
    homeBranch (some "gotoHomePosition not supported") (1/2)
      = ([.gotoHome, .absoluteMove (.num 0) (.num 0) (.num 0) (1/2)], none) :=
  (c5_home_fallback "gotoHomePosition not supported" (1/2)).1

/-! ### C6 — continuous move with duration -/

/-- C6: a continuous move left at speed 0.3 for 2 seconds issues one
continuous-move call with velocity x = -0.3 and a rounded device timeout
hint of 2, then waits 2000 ms locally, then issues exactly one stop; and
for every direction, speed and supplied duration the trace is one
continuous move, the local wait, then the stop. -/
theorem c6_continuous_move_autostop :
    continuousMoveBranch true false false false false false (3/10) (some 2)
      = ([.continuousMove (-(3/10)) 0 0 (some 2), .waitMs 2000, .stopCall], none)
    ∧ parseFloatJS "0.3" = some (3/10)
    ∧ (continuousMoveBranch true false false false false false (3/10) (some 2)).1.countP
        (fun e => isContinuousMove e) = 1
    ∧ (continuousMoveBranch true false false false false false (3/10) (some 2)).1.countP
        (fun e => isStopCall e) = 1
    ∧ ∀ (l r u d zi zo : Bool) (speed dur : ℚ),
        (continuousMoveBranch l r u d zi zo speed (some dur)).1
          = [.continuousMove
                (if l then -speed else if r then speed else 0)
                (if u then speed else if d then -speed else 0)
                (if zi then speed else if zo then -speed else 0)
                (some (jsRound dur)),
             .waitMs (dur * 1000), .stopCall] := by
  refine ⟨?_, ?_, ?_, ?_, ?_⟩
  · show ([Event.continuousMove (-(3/10) : ℚ) 0 0 (some (jsRound 2)),
        .waitMs ((2 : ℚ) * 1000), .stopCall], (none : Option String))
      = ([.continuousMove (-(3/10)) 0 0 (some 2), .waitMs 2000, .stopCall], none)
    norm_num [jsRound]
  · rw [show parseFloatJS "0.3"
      = some ((1 : ℚ) * (((3 : ℕ) : ℚ) / (10 : ℚ) ^ (1 : ℕ)) * (10 : ℚ) ^ (0 : ℤ)) from rfl]
    norm_num
  · rfl
  · rfl
  · intro l r u d zi zo speed dur
    rfl

/-- C6 witness: the general trace shape at a concrete direction, speed
and duration. -/
theorem c6_witness :
    (continuousMoveBranch false true false false false false 1 (some 3)).1
      = [.continuousMove 1 0 0 (some 3), .waitMs 3000, .stopCall] := by
  have h := c6_continuous_move_autostop.2.2.2.2 false true false false false false 1 3
  rw [h]
  norm_num [jsRound]

/-! ### C7 — extractPresets normalization -/

/-- Building a record from any non-null raw entry succeeds. -/
theorem presetOfRecord_ok_of_ne_null (x : JSVal) (h : x ≠ .null) :
    ∃ r, presetOfRecord x = .ok r := by
  cases x with
  | null => exact absurd rfl h
  | str s => exact ⟨_, rfl⟩
  | obj fs => exact ⟨_, rfl⟩
  | arr xs => exact ⟨_, rfl⟩

/-- A successful record-mapping preserves the number of entries. -/
theorem mapM_presetOfRecord_ok : ∀ (xs : List JSVal) (rs : List Preset),
    xs.mapM presetOfRecord = .ok rs → rs.length = xs.length := by
  intro xs
  induction xs with
  | nil =>
    intro rs h
    rw [List.mapM_nil] at h
    have he : ([] : List Preset) = rs := by simpa [pure, Except.pure] using h
    rw [← he]
    rfl
  | cons x tl ih =>
    intro rs h
    rw [List.mapM_cons] at h
    cases hx : presetOfRecord x with
    | error e => rw [hx] at h; simp [Bind.bind, Except.bind] at h
    | ok r =>
      rw [hx] at h
      cases htl : tl.mapM presetOfRecord with
      | error e => rw [htl] at h; simp [Bind.bind, Except.bind] at h
      | ok rs' =>
        rw [htl] at h
        have he : r :: rs' = rs := by
          simpa [Bind.bind, Except.bind, pure, Except.pure] using h
        rw [← he]
        simp [ih rs' htl]

/-- Mapping a record list without null entries never throws. -/
theorem mapM_presetOfRecord_no_null : ∀ (xs : List JSVal),
    (∀ x ∈ xs, x ≠ JSVal.null) → ∃ rs, xs.mapM presetOfRecord = .ok rs := by
  intro xs
  induction xs with
  | nil => exact fun _ => ⟨[], by rw [List.mapM_nil]; rfl⟩
  | cons x tl ih =>
    intro h
    obtain ⟨r, hr⟩ := presetOfRecord_ok_of_ne_null x (h x (by simp))
    obtain ⟨rs, hrs⟩ := ih (fun y hy => h y (List.mem_cons_of_mem _ hy))
    exact ⟨r :: rs, by rw [List.mapM_cons, hr, hrs]; rfl⟩

/-- C7, amended: `extractPresets` normalizes the array-or-singleton
`Preset` payload into a list — a single record yields a one-element
list, an array yields one record per entry in source order, and a
missing `Preset` field or null/empty input yields the empty list; the
name defaults to the empty string when absent; and it never throws
except when the `Preset` array contains a null entry (whose attribute
access raises a TypeError). -/
theorem c7_extract_presets_normalizes :
    (∀ fs : List (String × JSVal),
      extractPresets (wrapPreset (.obj fs))
        = .ok [⟨jsOrEmpty (getFieldOpt (getFieldOpt (.obj fs) "$") "token"),
            jsOrEmpty (getFieldOpt (.obj fs) "Name")⟩])
    ∧ (∀ (xs : List JSVal) (rs : List Preset), xs.mapM presetOfRecord = .ok rs →
        extractPresets (wrapPreset (.arr xs)) = .ok rs ∧ rs.length = xs.length)
    ∧ (∀ v : JSVal,
        jsTruthyV (getFieldOpt (getFieldOpt (getFieldOpt v "data") "GetPresetsResponse")
          "Preset") = false → extractPresets v = .ok [])
    ∧ extractPresets .null = .ok []
    ∧ extractPresets (.obj []) = .ok []
    ∧ (∀ fs : List (String × JSVal), lookupField fs "Name" = .null →
        presetOfRecord (.obj fs)
          = .ok ⟨jsOrEmpty (getFieldOpt (getFieldOpt (.obj fs) "$") "token"), .str ""⟩)
    ∧ (∀ xs : List JSVal, (∀ x ∈ xs, x ≠ JSVal.null) →
        ∃ rs, extractPresets (wrapPreset (.arr xs)) = .ok rs) := by
  refine ⟨fun fs => rfl, ?_, ?_, rfl, rfl, ?_, ?_⟩
  · intro xs rs h
    exact ⟨h, mapM_presetOfRecord_ok xs rs h⟩
  · intro v h
    simp [extractPresets, h]
  · intro fs h
    simp [presetOfRecord, getFieldOpt, h, jsOrEmpty, jsTruthyV]
  · intro xs h
    obtain ⟨rs, hrs⟩ := mapM_presetOfRecord_no_null xs h
    exact ⟨rs, hrs⟩

/-- C7, counterexample to the claim as stated: a response whose
`Preset` field is an array containing a null entry makes
`extractPresets` throw (reading the null entry's attribute holder),
so it does not hold that it never raises. -/
theorem c7_counterexample : extractPresets presetArrayNull = .error () := rfl

/-- C7 witness: a one-element array maps to a one-element list. -/
theorem c7_witness :
    extractPresets (wrapPreset (.arr [JSVal.obj []])) = .ok [⟨.str "", .str ""⟩] :=
  (c7_extract_presets_normalizes.2.1 [JSVal.obj []] [⟨.str "", .str ""⟩] rfl).1

/-! ### C8 — findPreset lookup -/

/-- The search loop of `findPreset`, characterized on string-shaped
preset lists: it never throws, `none` means nothing matches, and a hit
is the first matching record. -/
theorem findPresetAux_spec (valStr : String) :
    ∀ presets : List Preset, (∀ p ∈ presets, presetIsStr p = true) →
      ∃ r, findPresetAux valStr presets = .ok r
        ∧ (r = none → ∀ p ∈ presets, presetMatches p valStr = false)
        ∧ (∀ p, r = some p → ∃ l1 l2, presets = l1 ++ p :: l2
            ∧ presetMatches p valStr = true
            ∧ ∀ q ∈ l1, presetMatches q valStr = false) := by
  intro presets
  induction presets with
  | nil =>
    intro _
    refine ⟨none, rfl, ?_, ?_⟩
    · intro _ p hp
      exact absurd hp (List.not_mem_nil p)
    · intro p hp
      exact absurd hp (by simp)
  | cons p tl ih =>
    intro hstr
    have hp1 := hstr p (List.mem_cons_self p tl)
    have htl := fun q hq => hstr q (List.mem_cons_of_mem p hq)
    unfold presetIsStr at hp1
    have h12 := Bool.and_eq_true _ _ ▸ hp1
    obtain ⟨ts, hts⟩ : ∃ s, p.token = JSVal.str s := by
      cases hq : p.token with
      | str s => exact ⟨s, rfl⟩
      | null => rw [hq] at h12; exact absurd h12.1 (by simp)
      | obj o => rw [hq] at h12; exact absurd h12.1 (by simp)
      | arr a2 => rw [hq] at h12; exact absurd h12.1 (by simp)
    obtain ⟨ns, hns⟩ : ∃ s, p.name = JSVal.str s := by
      cases hq : p.name with
      | str s => exact ⟨s, rfl⟩
      | null => rw [hq] at h12; exact absurd h12.2 (by simp)
      | obj o => rw [hq] at h12; exact absurd h12.2 (by simp)
      | arr a2 => rw [hq] at h12; exact absurd h12.2 (by simp)
    rw [show findPresetAux valStr (p :: tl)
        = if (match p.token with
              | JSVal.str s => s == valStr
              | _ => false) then .ok (some p)
          else if jsTruthyV p.name then
            match p.name with
            | JSVal.str s =>
              if lowerStr s == lowerStr valStr then .ok (some p)
              else findPresetAux valStr tl
            | _ => .error ()
          else findPresetAux valStr tl
      from rfl]
    simp only [hts, hns, jsTruthyV]
    by_cases h1 : ts = valStr
    · refine ⟨some p, ?_, ?_, ?_⟩
      · rw [if_pos (by simp [h1])]
      · intro hcontra
        exact absurd hcontra (by simp)
      · intro p' hp'
        have hpp : p' = p := (Option.some.inj hp').symm
        subst hpp
        refine ⟨[], tl, rfl, ?_, ?_⟩
        · simp [presetMatches, hts, h1]
        · intro q hq
          exact absurd hq (by simp)
    · by_cases h2 : ns = ""
      · obtain ⟨r, hr, hnone, hsome⟩ := ih htl
        refine ⟨r, ?_, ?_, ?_⟩
        · rw [if_neg (by simp [h1]), if_neg (by simp [h2])]
          exact hr
        · intro hr0 q hq
          rcases List.mem_cons.mp hq with rfl | hq'
          · simp [presetMatches, hts, hns, h1, h2]
          · exact hnone hr0 q hq'
        · intro p' hp'
          obtain ⟨l1, l2, hsplit, hm, hnomatch⟩ := hsome p' hp'
          refine ⟨p :: l1, l2, by rw [hsplit]; rfl, hm, ?_⟩
          intro q hq
          rcases List.mem_cons.mp hq with rfl | hq'
          · simp [presetMatches, hts, hns, h1, h2]
          · exact hnomatch q hq'
      · by_cases h3 : lowerStr ns = lowerStr valStr
        · refine ⟨some p, ?_, ?_, ?_⟩
          · rw [if_neg (by simp [h1]), if_pos (by simp [h2]), if_pos (by simp [h3])]
          · intro hcontra
            exact absurd hcontra (by simp)
          · intro p' hp'
            have hpp : p' = p := (Option.some.inj hp').symm
            subst hpp
            refine ⟨[], tl, rfl, ?_, ?_⟩
            · simp [presetMatches, hts, hns, h2, h3]
            · intro q hq
              exact absurd hq (by simp)
        · obtain ⟨r, hr, hnone, hsome⟩ := ih htl
          refine ⟨r, ?_, ?_, ?_⟩
          · rw [if_neg (by simp [h1]), if_pos (by simp [h2]), if_neg (by simp [h3])]
            exact hr
          · intro hr0 q hq
            rcases List.mem_cons.mp hq with rfl | hq'
            · simp [presetMatches, hts, hns, h1, h3]
            · exact hnone hr0 q hq'
          · intro p' hp'
            obtain ⟨l1, l2, hsplit, hm, hnomatch⟩ := hsome p' hp'
            refine ⟨p :: l1, l2, by rw [hsplit]; rfl, hm, ?_⟩
            intro q hq
            rcases List.mem_cons.mp hq with rfl | hq'
            · simp [presetMatches, hts, hns, h1, h3]
            · exact hnomatch q hq'

/-- C8: on preset lists of the data model's shape (string token and
name), `findPreset` coerces the identifier to text and returns the
first record whose token equals that text verbatim or whose non-empty
name equals it case-insensitively; with no match it returns the
not-found signal, never throwing.  Concretely, a numeric identifier is
coerced, `HOME` and `door` match case-insensitively, and an unknown
identifier yields not-found. -/
theorem c8_find_preset :
    (∀ (presets : List Preset) (val : JVal), (∀ p ∈ presets, presetIsStr p = true) →
      ∃ r, findPreset presets val = .ok r
        ∧ (r = none → ∀ p ∈ presets, presetMatches p (jsToStr val) = false)
        ∧ (∀ p, r = some p → ∃ l1 l2, presets = l1 ++ p :: l2
            ∧ presetMatches p (jsToStr val) = true
            ∧ ∀ q ∈ l1, presetMatches q (jsToStr val) = false))
    ∧ findPreset homePresets (JVal.num 1) = .ok (some ⟨.str "1", .str "Home"⟩)
    ∧ findPreset homePresets (JVal.str "HOME") = .ok (some ⟨.str "1", .str "Home"⟩)
    ∧ findPreset homePresets (JVal.str "door") = .ok (some ⟨.str "2", .str "Door"⟩)
    ∧ findPreset homePresets (JVal.str "nope") = .ok none := by
  refine ⟨?_, rfl, rfl, rfl, rfl⟩
  intro presets val hstr
  exact findPresetAux_spec (jsToStr val) presets hstr

/-- C8 witness: the specification applied to a concrete preset list and
identifier. -/
theorem c8_witness :
    ∃ r, findPreset homePresets (JVal.str "Home") = .ok r
      ∧ (r = none → ∀ p ∈ homePresets, presetMatches p (jsToStr (JVal.str "Home")) = false)
      ∧ (∀ p, r = some p → ∃ l1 l2, homePresets = l1 ++ p :: l2
          ∧ presetMatches p (jsToStr (JVal.str "Home")) = true
          ∧ ∀ q ∈ l1, presetMatches q (jsToStr (JVal.str "Home")) = false) :=
  c8_find_preset.1 homePresets (JVal.str "Home") (by decide)

/-! ### C9 — address validation -/

/-- The decimal rendering of a nonnegative integer agrees with the
rendering of the natural number. -/
theorem int_repr_ofNat (m : ℕ) : toString (Int.ofNat m) = toString m := rfl

set_option maxRecDepth 4000 in
/-- Parsing the canonical rendering of a small natural number recovers
it. -/
theorem parse_repr_255 : ∀ m : ℕ, m < 256 → parseIntStr (toString m) = some (Int.ofNat m) := by
  decide

/-- One group passes `validateIp`'s per-group check exactly when it is
the canonical rendering of an integer in `[0, 255]`. -/
theorem partOk_iff (p : String) :
    partOk p = true ↔ ∃ n : ℕ, n ≤ 255 ∧ toString n = p := by
  constructor
  · intro h
    unfold partOk at h
    cases hp : parseIntStr p with
    | none => rw [hp] at h; simp at h
    | some z =>
      rw [hp] at h
      have h' : ¬z < 0 ∧ ¬z > 255 ∧ toString z = p := by simpa [and_assoc] using h
      obtain ⟨m, rfl⟩ : ∃ m : ℕ, z = Int.ofNat m :=
        ⟨z.toNat, (Int.toNat_of_nonneg (not_lt.mp h'.1)).symm⟩
      refine ⟨m, ?_, ?_⟩
      · have hle : (m : ℤ) ≤ 255 := not_lt.mp h'.2.1
        omega
      · rw [← int_repr_ofNat]
        exact h'.2.2
  · rintro ⟨n, hn, rfl⟩
    unfold partOk
    rw [parse_repr_255 n (by omega)]
    have h1 : ¬ ((n : ℤ) < 0) := by omega
    have h2 : ¬ ((n : ℤ) > 255) := by omega
    simp [h1, h2]
    exact int_repr_ofNat n

/-- C9: `validateIp` accepts a string exactly when it is four
dot-separated groups, each the canonical decimal rendering of an
integer in `[0, 255]` — so wrong group counts, out-of-range octets,
non-numeric groups and leading zeros are all rejected. -/
theorem c9_validate_ip_iff_canonical_quad :
    ∀ ip : String, validateIp ip = none ↔ specCanonicalQuad ip := by
  intro ip
  unfold validateIp specCanonicalQuad
  by_cases hip : ip = ""
  · subst hip
    rw [if_pos rfl]
    constructor
    · intro hc
      exact absurd hc (by simp)
    · intro hc
      exact absurd hc.1 (by decide)
  · rw [if_neg hip]
    by_cases hlen : (splitDot ip).length = 4
    · rw [if_neg (fun hc => hc hlen)]
      by_cases hall : (splitDot ip).all partOk
      · rw [if_pos hall]
        constructor
        · intro _
          refine ⟨hlen, ?_⟩
          intro q hq
          exact (partOk_iff q).mp (List.all_eq_true.mp hall q hq)
        · intro _
          rfl
      · rw [if_neg hall]
        constructor
        · intro hc
          exact absurd hc (by simp)
        · rintro ⟨_, hq⟩
          exact absurd
            (List.all_eq_true.mpr (fun q hqmem => (partOk_iff q).mpr (hq q hqmem))) hall
    · rw [if_pos hlen]
      constructor
      · intro hc
        exact absurd hc (by simp)
      · rintro ⟨h4, _⟩
        exact absurd h4 hlen

/-- C9 witness: a concrete canonical address is accepted and is a
canonical quad. -/
theorem c9_witness :
    validateIp "192.168.0.107" = none ∧ specCanonicalQuad "192.168.0.107" :=
  ⟨by decide, (c9_validate_ip_iff_canonical_quad "192.168.0.107").mp (by decide)⟩

/-! ### C10 — failed captures delete the destination file -/

/-- C10: whenever a snapshot capture exits with an error, the file at
the resolved destination (pre-existing or partially written) has been
deleted; in particular a failing direct fetch deletes a file that
existed before the invocation and was never written by it. -/
theorem c10_failed_capture_deletes_destination :
    (∀ (m : String) (fr : Except String (List ℕ)) (fw : Option (List ℕ))
       (fe : Option String) (out : String) (fs : FSt),
        (captureSnapshot m fr fw fe out fs).2 = false →
        (captureSnapshot m fr fw fe out fs).1 out = none)
    ∧ (∀ (out : String) (content : List ℕ) (fs : FSt),
        fs out = some content →
        captureSnapshot "onvif" (Except.error "boom") none none out fs
          = (updateFS fs out none, false)) := by
  constructor
  · intro m fr fw fe out fs h
    unfold captureSnapshot at h ⊢
    generalize (if m = "onvif" then captureViaOnvif fr out fs
      else captureViaRtsp fw fe out fs) = step at h ⊢
    rcases step with ⟨fs1, err⟩
    cases err with
    | none => exact absurd h (by simp)
    | some e =>
      cases hval : fs1 out with
      | none => simp [hval, updateFS]
      | some c => simp [hval, updateFS]
  · intro out content fs h
    simp [captureSnapshot, captureViaOnvif, h]

/-- C10 witness: a failing fetch against a pre-existing file removes
that file. -/
theorem c10_witness :
    (captureSnapshot "onvif" (Except.error "boom") none none "/tmp/snap.jpg"
      preExistingFS).1 "/tmp/snap.jpg" = none :=
  c10_failed_capture_deletes_destination.1 "onvif" (Except.error "boom") none none
    "/tmp/snap.jpg" preExistingFS (by rfl)

end Tapo
